import Mathlib

/-!
Verification of the cloudnote offline-sync and asset-GC core.

This file gives a shallow embedding, in Lean, of the parts of the
cloudnote repository that carry real invariants:

* the client Draft Store (`StorageService` in the frontend:
  `saveDraft`, `initShadow`, `markClean`, `moveDraft`, `syncFile`),
* the server file routes (`router.patch`, `router.put` in
  `backend/src/routes/files.ts`) and the path validation `getSafePath`,
* the editor's load/reconcile decision (`loadContent`),
* the asset garbage collector (`runGarbageCollection` in
  `backend/src/gc.ts`), including its reference-extraction regexes and
  `decodeURIComponent`.

Machine integers of the source (timestamps in milliseconds) are
modelled as `Nat`; JavaScript exceptions are modelled with `Option` /
`Except`; external library calls (`md5`, diff-match-patch) are
modelled as explicit function parameters, with their documented
properties taken as hypotheses where a proof needs them.
-/

namespace CloudNote

/-! ## Draft Store (frontend StorageService)

The localforage instance is a durable key/value map from document path
to `Draft`.  We model it as a function `String → Option Draft`.
-/

/-- The `Draft` interface of `StorageService`: locally known content,
local modification time (ms), dirty flag, and the optional shadow pair.
`shadowChecksum` is the MD5 the client believes matches
`shadowContent`. -/
structure Draft where
  content : String
  timestamp : Nat
  dirty : Bool
  shadowContent : Option String
  shadowChecksum : Option String
  deriving DecidableEq, Repr

/-- The draft store: localforage keyed by document path. -/
def DraftStore : Type := String → Option Draft

/-- Point update of the store (`setItem` / `removeItem`). -/
def updateStore (store : DraftStore) (path : String) (v : Option Draft) : DraftStore :=
  fun q => if q = path then v else store q

/-- StorageService.saveDraft: upsert content, stamp the current time,
set dirty, and carry over any existing shadow pair
(`existing?.shadowContent`, `existing?.shadowChecksum`). -/
def saveDraft (now : Nat) (store : DraftStore) (path content : String) : DraftStore :=
  let existing := store path
  updateStore store path (some
    { content := content
      timestamp := now
      dirty := true
      shadowContent := existing.bind (fun d => d.shadowContent)
      shadowChecksum := existing.bind (fun d => d.shadowChecksum) })

/-- StorageService.initShadow: after a clean load from the server,
overwrite the entry with a clean draft whose shadow pair is the
freshly fetched content and checksum. -/
def initShadow (now : Nat) (store : DraftStore) (path content checksum : String) : DraftStore :=
  updateStore store path (some
    { content := content
      timestamp := now
      dirty := false
      shadowContent := some content
      shadowChecksum := some checksum })

/-- StorageService.markClean: if a draft exists at `path`, clear its
dirty flag, set its timestamp to the server-reported `lastModified`,
and replace the shadow pair with the just-synced content/checksum.
If no draft exists the store is left untouched (the `if (draft)`
guard in the source). -/
def markClean (store : DraftStore) (path : String) (lastModified : Nat)
    (newChecksum newContent : String) : DraftStore :=
  match store path with
  | none => store
  | some d => updateStore store path (some
      { d with
        dirty := false
        timestamp := lastModified
        shadowContent := some newContent
        shadowChecksum := some newChecksum })

/-- StorageService.moveDraft: copy the entry to the new key, then
remove the old key (so moving a path onto itself removes it, exactly
as the `setItem` / `removeItem` sequence of the source does). -/
def moveDraft (store : DraftStore) (oldPath newPath : String) : DraftStore :=
  match store oldPath with
  | none => store
  | some d => updateStore (updateStore store newPath (some d)) oldPath none

/-- StorageService.removeDraft. -/
def removeDraft (store : DraftStore) (path : String) : DraftStore :=
  updateStore store path none

/-! ## Sync engine (StorageService.syncFile)

The two network calls `patchFile` and `updateFile` are the axios
wrappers over the server routes.  `syncFile` is parametrised over them
(state type `σ` is the server-side state they act on; a network
failure or a non-2xx response is a thrown exception, i.e. `.error`).
`mkPatch` is `dmp.patch_make` followed by `dmp.patch_toText`.
The returned request trace records the network calls made, in order.
-/

/-- Successful JSON body of PUT / PATCH: `{lastModified, checksum}`. -/
structure ApiResp where
  lastModified : Nat
  checksum : String
  deriving DecidableEq, Repr

/-- The API surface `syncFile` uses, together with the diff builder. -/
structure SyncApi (σ : Type) where
  patchFile : σ → String → String → String → σ × Except Unit ApiResp
  updateFile : σ → String → String → σ × Except Unit ApiResp
  mkPatch : String → String → String

/-- A network request issued by `syncFile`. -/
inductive Request where
  | patchReq (path patchText checksum : String)
  | putReq (path content : String)
  deriving DecidableEq, Repr

/-- Result contract of `syncFile`: `{success, lastModified?}`. -/
structure SyncResult where
  success : Bool
  lastModified : Option Nat
  deriving DecidableEq, Repr

/-- JavaScript truthiness of an optional string: `undefined` and the
empty string are both falsy. -/
def truthyStr : Option String → Bool
  | none => false
  | some s => s ≠ ""

/-- The full-overwrite arm of `syncFile`: `updateFile(path, content)`
then `markClean` with the response and the local content; a thrown
error reaches the outer catch, which returns `{success:false}` and
leaves the store untouched. -/
def syncFullUpdate {σ : Type} (api : SyncApi σ) (srv : σ) (store : DraftStore)
    (path : String) (d : Draft) (trace : List Request) :
    DraftStore × σ × SyncResult × List Request :=
  match api.updateFile srv path d.content with
  | (srv2, .ok resp) =>
      (markClean store path resp.lastModified resp.checksum d.content,
       srv2, ⟨true, some resp.lastModified⟩, trace ++ [.putReq path d.content])
  | (srv2, .error _) =>
      (store, srv2, ⟨false, none⟩, trace ++ [.putReq path d.content])

/-- The dirty branch of `syncFile`: if both shadow fields are truthy
(present and nonempty — JavaScript
`draft.shadowContent && draft.shadowChecksum`), build the diff from
`shadowContent` to `content` and send it with `shadowChecksum`; on a
thrown patch error fall back to a full overwrite.  Otherwise go
straight to the full overwrite. -/
def syncDirty {σ : Type} (api : SyncApi σ) (srv : σ) (store : DraftStore)
    (path : String) (d : Draft) : DraftStore × σ × SyncResult × List Request :=
  if truthyStr d.shadowContent ∧ truthyStr d.shadowChecksum then
    let sc := d.shadowContent.getD ""
    let scs := d.shadowChecksum.getD ""
    let patchText := api.mkPatch sc d.content
    match api.patchFile srv path patchText scs with
    | (srv2, .ok resp) =>
        (markClean store path resp.lastModified resp.checksum d.content,
         srv2, ⟨true, some resp.lastModified⟩, [.patchReq path patchText scs])
    | (srv2, .error _) =>
        syncFullUpdate api srv2 store path d [.patchReq path patchText scs]
  else
    syncFullUpdate api srv store path d []

/-- StorageService.syncFile.  No-op success if the draft is absent or
clean, otherwise the dirty branch. -/
def syncFile {σ : Type} (api : SyncApi σ) (srv : σ) (store : DraftStore) (path : String) :
    DraftStore × σ × SyncResult × List Request :=
  match store path with
  | none => (store, srv, ⟨true, none⟩, [])
  | some d =>
    if d.dirty = false then (store, srv, ⟨true, none⟩, [])
    else syncDirty api srv store path d

/-! ## Server file store (backend routes/files.ts)

A single document file on the server: its content (absent if the file
does not exist) and its modification time in milliseconds.  The MD5
helper of the route file and diff-match-patch's `patch_fromText` +
`patch_apply` are explicit function parameters; `applyP patchText base`
returns the patched text and the per-hunk boolean results, exactly the
`[newText, results]` pair of `dmp.patch_apply`. -/
structure FileState where
  content : Option String
  mtime : Nat
  deriving DecidableEq, Repr

/-- Outcome of the PATCH route, `router.patch` in files.ts. -/
inductive PatchOutcome where
  | badRequest
  | notFound
  | conflict (currentContent : String)
  | applyFailed (currentContent : String)
  | ok (lastModified : Nat) (checksum : String)
  deriving DecidableEq, Repr

/-- The PATCH /api/files handler.  In source order: the 400 guard
(`!reqPath || typeof patch !== 'string' || !checksum` — JavaScript
truthiness, so an empty path or empty checksum is rejected), the 404
existence check, the checksum comparison (409 with `currentContent`),
patch application with the per-hunk result check (422 with
`currentContent`), and finally the write returning the new
`lastModified` and the MD5 of the new text.  `now` is the mtime the
write produces. -/
def routerPatch (md5 : String → String) (applyP : String → String → String × List Bool)
    (now : Nat) (st : FileState) (reqPath patchText checksum : String) :
    FileState × PatchOutcome :=
  if reqPath = "" ∨ checksum = "" then (st, .badRequest)
  else
    match st.content with
    | none => (st, .notFound)
    | some currentContent =>
      if md5 currentContent ≠ checksum then (st, .conflict currentContent)
      else
        let res := applyP patchText currentContent
        if res.2.all (fun s => s) then
          ({ content := some res.1, mtime := now }, .ok now (md5 res.1))
        else (st, .applyFailed currentContent)

/-- Outcome of the PUT route, `router.put` in files.ts. -/
inductive PutOutcome where
  | badRequest
  | ok (lastModified : Nat) (checksum : String)
  deriving DecidableEq, Repr

/-- The PUT /api/files handler: a 400 guard on an empty path, then an
unconditional `fs.writeFile` (creating the file if absent) returning
the new `lastModified` and the MD5 of the written content. -/
def routerPut (md5 : String → String) (now : Nat) (st : FileState)
    (reqPath content : String) : FileState × PutOutcome :=
  if reqPath = "" then (st, .badRequest)
  else ({ content := some content, mtime := now }, .ok now (md5 content))

/-- The axios-level view of the two routes, as a `SyncApi` over the
server `FileState`.  `patchNetOk` / `putNetOk` model whether the
respective request reaches the server at all; any non-2xx status
(400/404/409/422) makes axios throw, i.e. yields `.error`. -/
def fileApi (md5 : String → String) (mkP : String → String → String)
    (applyP : String → String → String × List Bool)
    (now : Nat) (patchNetOk putNetOk : Bool) : SyncApi FileState where
  patchFile := fun st path patchText checksum =>
    if patchNetOk then
      match routerPatch md5 applyP now st path patchText checksum with
      | (st2, .ok lm ck) => (st2, .ok ⟨lm, ck⟩)
      | (st2, _) => (st2, .error ())
    else (st, .error ())
  updateFile := fun st path content =>
    if putNetOk then
      match routerPut md5 now st path content with
      | (st2, .ok lm ck) => (st2, .ok ⟨lm, ck⟩)
      | (st2, _) => (st2, .error ())
    else (st, .error ())
  mkPatch := mkP

/-! ## Editor load/reconcile (Editor.tsx loadContent)

The decision core of `loadContent`: both fetches already done,
`serverData` is `null` when `getFileContent` failed (network error or
404 — the `.catch(() => null)`), `localDraft` is the stored draft or
`null`.  The side actions taken by each branch are recorded. -/

/-- The JSON of GET /api/files/content: `{content, lastModified, checksum}`. -/
structure ServerData where
  content : String
  lastModified : Nat
  checksum : String
  deriving DecidableEq, Repr

/-- Side actions of the load decision. -/
inductive LoadAction where
  | offlineNotice
  | initShadowAct (path content checksum : String)
  | schedulePush (path : String)
  deriving DecidableEq, Repr

/-- Outcome of the load decision: the thrown not-found error, or the
content placed in the editor plus the actions taken. -/
inductive LoadOutcome where
  | notFound
  | loaded (content : String) (acts : List LoadAction)
  deriving DecidableEq, Repr

/-- The case split of `loadContent` in Editor.tsx.  `initShadow` is
called only under the `if (serverData.checksum)` truthiness guard. -/
def loadContent (path : String) (serverData : Option ServerData)
    (localDraft : Option Draft) : LoadOutcome :=
  match serverData, localDraft with
  | none, none => .notFound
  | none, some d => .loaded d.content [.offlineNotice]
  | some sd, none =>
      .loaded sd.content
        (if sd.checksum ≠ "" then [.initShadowAct path sd.content sd.checksum] else [])
  | some sd, some d =>
      if d.dirty then .loaded d.content [.schedulePush path]
      else
        .loaded sd.content
          (if sd.checksum ≠ "" then [.initShadowAct path sd.content sd.checksum] else [])

/-! ## Path validation (getSafePath in routes/files.ts)

`getSafePath` strips leading slashes from the request path, resolves
it against `DATA_DIR` with Node's `path.resolve`, and accepts the
result iff the resolved string starts with the `DATA_DIR` string.
`DATA_DIR` is an absolute normalized directory, modelled by its list
of segments (so `["app","data"]` stands for `/app/data`).
`path.resolve(base, rel)` for a relative `rel` is segment
normalization: empty and `.` segments are dropped, `..` pops the last
accumulated segment (staying at the root at worst). -/

/-- The `reqPath.replace(/^\/+/, '')` of the source. -/
def stripLeadingSlashes (s : String) : String :=
  (s.toList.dropWhile (fun c => c = '/')).asString

/-- Split a character list on `/`, keeping empty segments (the
behaviour of `String.split` on a separator). -/
def splitSlashesAux (cur : List Char) : List Char → List String
  | [] => [cur.reverse.asString]
  | '/' :: rest => cur.reverse.asString :: splitSlashesAux [] rest
  | c :: rest => splitSlashesAux (c :: cur) rest

/-- Path segments of a string. -/
def splitSlashes (s : String) : List String :=
  splitSlashesAux [] s.toList

/-- Character-sequence test for `String.prototype.startsWith`. -/
def strStartsWith (pre s : String) : Bool :=
  pre.toList.isPrefixOf s.toList

/-- Segment-level normalization of `path.resolve`: fold the relative
segments onto the absolute base segments. -/
def resolveParts (acc : List String) : List String → List String
  | [] => acc
  | "" :: rest => resolveParts acc rest
  | "." :: rest => resolveParts acc rest
  | ".." :: rest => resolveParts acc.dropLast rest
  | seg :: rest => resolveParts (acc ++ [seg]) rest

/-- Render absolute segments back to a path string. -/
def renderAbs (segs : List String) : String :=
  "/" ++ String.intercalate "/" segs

/-- `getSafePath`: resolve, then accept iff
`safePath.startsWith(DATA_DIR)`; on failure the source throws
(`Invalid path`), modelled by `none`. -/
def getSafePath (dataDir : List String) (reqPath : String) : Option String :=
  let rel := stripLeadingSlashes reqPath
  let resolved := resolveParts dataDir (splitSlashes rel)
  let safePath := renderAbs resolved
  if strStartsWith (renderAbs dataDir) safePath then some safePath else none

/-- The property the spec asserts of an accepted path (stated from the
spec's words, for comparison with what `getSafePath` enforces): the
path is the data root itself or lies strictly below it, i.e. extends
it past a path separator. -/
def strictlyInsideRoot (root p : String) : Prop :=
  p = root ∨ strStartsWith (root ++ "/") p

instance (root p : String) : Decidable (strictlyInsideRoot root p) := by
  unfold strictlyInsideRoot; infer_instance

/-! ## Asset garbage collector (backend/src/gc.ts)

The mark phase runs two JavaScript regexes over every document:
`/!\[.*?\]\((.*?)\)/g` (markdown images) and
`/<img[^>]+src=["'](.*?)["']/g` (HTML img tags), keeps every captured
url containing `/upload/`, and adds `decodeURIComponent(url)` to the
reference set.  Both scanners below implement the exact leftmost-match
semantics of `regex.exec` with the `g` flag, including the facts that
`.` does not match a newline, that the lazy groups stop at the first
closing delimiter, and that the greedy `[^>]+` prefers the last
possible `src=`.  They recurse on a strictly shorter remainder at
every step, so the explicit step bound `length + 1` they are run with
never runs out. -/

/-- Double quote character (code 34). -/
def quoteD : Char := Char.ofNat 34

/-- Single quote character (code 39). -/
def quoteS : Char := Char.ofNat 39

/-- Scan for the lazy `.*?\]\(` of the markdown-image regex: the
first literal close-bracket-open-paren, failing on a newline (which
the dot cannot match).  Returns the characters after the open paren. -/
def findAltClose : List Char → Option (List Char)
  | [] => none
  | c :: rest =>
    if c = ']' ∧ rest.head? = some '(' then some rest.tail
    else if c = '\n' then none
    else findAltClose rest

/-- Scan for the lazy `(.*?)\)`: the captured url up to the first
close paren, failing on a newline.  Returns the capture and the
characters after the close paren. -/
def findParenClose : List Char → Option (List Char × List Char)
  | [] => none
  | c :: rest =>
    if c = ')' then some ([], rest)
    else if c = '\n' then none
    else (findParenClose rest).map (fun p => (c :: p.1, p.2))

/-- One `exec` loop of `/!\[.*?\]\((.*?)\)/g`: at every position try
to match; on success emit the capture and resume after the match, on
failure advance one character.  The fuel argument only bounds the
number of steps; every recursive call is on a strictly shorter list,
so the `length + 1` supplied by `mdImageScan` is always enough. -/
def mdImageScanF : Nat → List Char → List String
  | 0, _ => []
  | _ + 1, [] => []
  | fuel + 1, '!' :: '[' :: rest =>
    (match findAltClose rest with
     | some afterAlt =>
       match findParenClose afterAlt with
       | some (url, rem) => url.asString :: mdImageScanF fuel rem
       | none => mdImageScanF fuel ('[' :: rest)
     | none => mdImageScanF fuel ('[' :: rest))
  | fuel + 1, _ :: rest => mdImageScanF fuel rest

/-- All captures of the markdown-image regex over a document. -/
def mdImageScan (l : List Char) : List String :=
  mdImageScanF (l.length + 1) l

/-- Match `src=` followed by one of the two quote characters at the
head of the list; return the characters after the quote. -/
def startsWithSrcEq : List Char → Option (List Char)
  | 's' :: 'r' :: 'c' :: '=' :: q :: tail =>
    if q = quoteD ∨ q = quoteS then some tail else none
  | _ => none

/-- Candidate `src="`/`src='` attachment points for the `[^>]+src=`
part of the img regex, scanning left to right and stopping once a `>`
would have to be part of the gap. -/
def srcCandsFrom : List Char → List (List Char)
  | [] => []
  | c :: rest =>
    (match startsWithSrcEq (c :: rest) with
     | some tail => [tail]
     | none => []) ++ (if c = '>' then [] else srcCandsFrom rest)

/-- Candidates for `[^>]+src=["']` after `<img`: the gap must contain
at least one character, so candidates start at position one or
later. -/
def srcCands : List Char → List (List Char)
  | [] => []
  | c :: rest => if c = '>' then [] else srcCandsFrom rest

/-- The lazy `(.*?)["']` capture: up to the first quote of either
kind, failing on a newline. -/
def captureTo : List Char → Option (List Char × List Char)
  | [] => none
  | c :: rest =>
    if c = quoteD ∨ c = quoteS then some ([], rest)
    else if c = '\n' then none
    else (captureTo rest).map (fun p => (c :: p.1, p.2))

/-- Try to complete an img-tag match after a literal `<img`: the
greedy `[^>]+` makes the engine try the longest gap (the last
candidate) first. -/
def tryImg (afterImg : List Char) : Option (List Char × List Char) :=
  (srcCands afterImg).reverse.findSome? captureTo

/-- One `exec` loop of `/<img[^>]+src=["'](.*?)["']/g`, with the same
fuel discipline as `mdImageScanF`. -/
def htmlImgScanF : Nat → List Char → List String
  | 0, _ => []
  | _ + 1, [] => []
  | fuel + 1, '<' :: 'i' :: 'm' :: 'g' :: rest =>
    (match tryImg rest with
     | some (url, rem) => url.asString :: htmlImgScanF fuel rem
     | none => htmlImgScanF fuel ('i' :: 'm' :: 'g' :: rest))
  | fuel + 1, _ :: rest => htmlImgScanF fuel rest

/-- All captures of the HTML img regex over a document. -/
def htmlImgScan (l : List Char) : List String :=
  htmlImgScanF (l.length + 1) l

/-! `decodeURIComponent`, as specified by ECMA-262: percent escapes
are decoded to bytes, byte runs must form valid UTF-8 (no lone or
missing continuation bytes, no overlong encodings, no surrogates, no
code points past 0x10FFFF); any violation throws a `URIError`,
modelled by `none`. -/

/-- Hexadecimal digit value, upper or lower case. -/
def hexDigit (c : Char) : Option Nat :=
  if '0' ≤ c ∧ c ≤ '9' then some (c.toNat - 48)
  else if 'A' ≤ c ∧ c ≤ 'F' then some (c.toNat - 55)
  else if 'a' ≤ c ∧ c ≤ 'f' then some (c.toNat - 87)
  else none

/-- A token of the escaped string: a plain character or a percent-escaped byte. -/
abbrev PctTok := Sum Char Nat

/-- Tokenize: each `%hh` becomes a byte, anything else stays a
character; a `%` not followed by two hex digits throws. -/
def pctTokens : List Char → Option (List PctTok)
  | [] => some []
  | '%' :: rest =>
    match rest with
    | h1 :: h2 :: rest2 =>
      (match hexDigit h1, hexDigit h2 with
       | some a, some b => (pctTokens rest2).map (fun t => .inr (16 * a + b) :: t)
       | _, _ => none)
    | _ => none
  | c :: rest => (pctTokens rest).map (fun t => .inl c :: t)

/-- UTF-8 continuation byte test. -/
def isCont (b : Nat) : Bool := 128 ≤ b ∧ b < 192

/-- Decode the token stream, validating UTF-8 byte runs. -/
def decodeTokens : List PctTok → Option (List Char)
  | [] => some []
  | .inl c :: rest => (decodeTokens rest).map (fun t => c :: t)
  | .inr b1 :: rest =>
    if b1 < 128 then (decodeTokens rest).map (fun t => Char.ofNat b1 :: t)
    else if b1 < 194 then none
    else if b1 < 224 then
      match rest with
      | .inr b2 :: rest2 =>
        if isCont b2 then
          (decodeTokens rest2).map (fun t => Char.ofNat ((b1 - 192) * 64 + (b2 - 128)) :: t)
        else none
      | _ => none
    else if b1 < 240 then
      match rest with
      | .inr b2 :: .inr b3 :: rest2 =>
        if isCont b2 ∧ isCont b3 then
          let cp := (b1 - 224) * 4096 + (b2 - 128) * 64 + (b3 - 128)
          if cp < 2048 ∨ (55296 ≤ cp ∧ cp ≤ 57343) then none
          else (decodeTokens rest2).map (fun t => Char.ofNat cp :: t)
        else none
      | _ => none
    else if b1 < 245 then
      match rest with
      | .inr b2 :: .inr b3 :: .inr b4 :: rest2 =>
        if isCont b2 ∧ isCont b3 ∧ isCont b4 then
          let cp := (b1 - 240) * 262144 + (b2 - 128) * 4096 + (b3 - 128) * 64 + (b4 - 128)
          if cp < 65536 ∨ 1114111 < cp then none
          else (decodeTokens rest2).map (fun t => Char.ofNat cp :: t)
        else none
      | _ => none
    else none

/-- The `decodeURIComponent` of the mark phase. -/
def decodeURIComponent (s : String) : Option String := do
  let toks ← pctTokens s.toList
  let chars ← decodeTokens toks
  pure chars.asString

/-- Contiguous-substring test on character lists. -/
def listHasInfix (pat : List Char) : List Char → Bool
  | [] => pat.isEmpty
  | c :: rest => pat.isPrefixOf (c :: rest) || listHasInfix pat rest

/-- The `url.includes('/upload/')` filter of the mark phase (an empty
url is falsy and cannot contain the marker anyway). -/
def hasUploadSubstr (u : String) : Bool :=
  listHasInfix "/upload/".toList u.toList

/-- References one document contributes to the mark set: both regex
scans, the `/upload/` filter, then `decodeURIComponent` on each kept
url.  A decode failure is a thrown `URIError`, which the collector's
single try/catch turns into an aborted pass (`none`). -/
def extractDocRefs (content : String) : Option (List String) :=
  ((mdImageScan content.toList ++ htmlImgScan content.toList).filter
    hasUploadSubstr).mapM decodeURIComponent

/-- The whole mark phase over all documents on disk. -/
def collectRefs : List String → Option (List String)
  | [] => some []
  | d :: rest => do
    let r ← extractDocRefs d
    let rs ← collectRefs rest
    pure (r ++ rs)

/-- A physical asset under the upload root, identified by its
url-path form `/upload/...` (the `'/' + path.relative(DATA_DIR, p)`
the sweep computes), with its filesystem modification time in
milliseconds. -/
structure Asset where
  url : String
  mtime : Nat
  deriving DecidableEq, Repr

/-- An item of the `_trash` recovery area: its file name and its
modification time.  `fs.move` within one filesystem is a rename,
which preserves `mtimeMs`, so a quarantined asset keeps the
modification time it had before relocation. -/
structure TrashItem where
  name : String
  mtime : Nat
  deriving DecidableEq, Repr

/-- The server tree as the collector sees it: markdown document
contents, physical assets, and the recovery area. -/
structure FsState where
  docs : List String
  assets : List Asset
  trash : List TrashItem
  deriving DecidableEq, Repr

/-- The 30-day retention window of gc.ts, in milliseconds. -/
def THIRTY_DAYS : Nat := 30 * 24 * 60 * 60 * 1000

/-- `path.basename`: the part after the last slash. -/
def baseName (s : String) : String :=
  ((s.toList.reverse.takeWhile (fun c => c ≠ '/')).reverse).asString

/-- One pass of `runGarbageCollection`: mark, sweep every asset whose
url path is not in the reference set into `_trash` under an
`orphaned_<now>_<basename>` name (a rename, so the mtime is
preserved), then reap every trash item (including the ones moved this
very pass — the reap step lists `_trash` after the sweep) whose age by
`mtimeMs` exceeds the retention window.  A thrown error (for example a
`URIError` from `decodeURIComponent` during mark) is caught by the
surrounding try/catch before any move has happened, leaving the tree
unchanged. -/
def runGarbageCollection (now : Nat) (st : FsState) : FsState :=
  match collectRefs st.docs with
  | none => st
  | some used =>
    let kept := st.assets.filter (fun a => used.contains a.url)
    let orphans := st.assets.filter (fun a => !(used.contains a.url))
    let trashAfterSweep := st.trash ++ orphans.map (fun a =>
      { name := "orphaned_" ++ toString now ++ "_" ++ baseName a.url
        mtime := a.mtime })
    let trashAfterReap := trashAfterSweep.filter
      (fun t => !(decide (THIRTY_DAYS < now - t.mtime)))
    { docs := st.docs, assets := kept, trash := trashAfterReap }

/-! ## Invariant of the Draft data model

The documented Draft invariant: if `shadowContent` is present,
`shadowChecksum` equals the fingerprint of `shadowContent`. -/

/-- Shadow-pair consistency of one draft. -/
def shadowOk (md5 : String → String) (d : Draft) : Prop :=
  ∀ sc, d.shadowContent = some sc → d.shadowChecksum = some (md5 sc)

/-- Shadow-pair consistency of every draft in the store. -/
def storeOk (md5 : String → String) (store : DraftStore) : Prop :=
  ∀ p d, store p = some d → shadowOk md5 d

/-! ## Concrete fixtures used by witnesses and counterexamples -/

/-- An empty draft store. -/
def emptyStore : DraftStore := fun _ => none

/-- A concrete stand-in fingerprint function (injective, never empty). -/
def mdC (s : String) : String := "f:" ++ s

/-- A concrete stand-in patch application: the serialized patch is the
target text itself, and it always applies cleanly. -/
def applyC (p _base : String) : String × List Bool := (p, [true])

/-- A concrete stand-in diff builder matching `applyC`. -/
def mkPC (_a b : String) : String := b

/-- An API against which every request fails (server unreachable). -/
def downApi : SyncApi Unit where
  patchFile := fun s _ _ _ => (s, .error ())
  updateFile := fun s _ _ => (s, .error ())
  mkPatch := mkPC

/-- An API whose patch request fails and whose overwrite succeeds. -/
def failPatchApi : SyncApi Unit where
  patchFile := fun s _ _ _ => (s, .error ())
  updateFile := fun s _ _ => (s, .ok ⟨3, "ck3"⟩)
  mkPatch := fun a b => "d(" ++ a ++ "," ++ b ++ ")"

/-- An API against which every request would succeed. -/
def okApi : SyncApi Unit where
  patchFile := fun s _ _ _ => (s, .ok ⟨1, "ck1"⟩)
  updateFile := fun s _ _ => (s, .ok ⟨2, "ck2"⟩)
  mkPatch := fun a b => "d(" ++ a ++ "," ++ b ++ ")"

/-- A clean draft at `a.md`. -/
def cleanStore : DraftStore := fun q =>
  if q = "a.md" then some ⟨"c", 1, false, none, none⟩ else none

/-- A store with one entry, at `b.md`. -/
def storeB : DraftStore := fun q =>
  if q = "b.md" then some ⟨"x", 2, true, none, none⟩ else none

/-- A dirty draft at `n.md` whose shadow pair is present but whose
`shadowContent` is the empty string (the state `initShadow` leaves
after loading an empty server file, once an edit makes it dirty). -/
def emptyShadowStore : DraftStore := fun q =>
  if q = "n.md" then
    some ⟨"B", 0, true, some "", some "d41d8cd98f00b204e9800998ecf8427e"⟩
  else none

/-- A dirty draft at `n.md` with a proper nonempty shadow pair. -/
def dirtyStore : DraftStore := fun q =>
  if q = "n.md" then some ⟨"B", 0, true, some "A", some "fA"⟩ else none

/-- The identity as a (trivially injective) fingerprint function. -/
def idHash (s : String) : String := s

/-- A dirty draft at `a.md` whose shadow pair is consistent for `idHash`. -/
def storeIdOk : DraftStore := fun q =>
  if q = "a.md" then some ⟨"B", 0, true, some "A", some "A"⟩ else none

/-- The document/asset tree of the C4 counterexample: one document
referencing one asset with plain markdown link syntax. -/
def linkOnlyState : FsState :=
  ⟨["see [video](/upload/2024/01/video.mp4) here"],
   [⟨"/upload/2024/01/video.mp4", 90⟩], []⟩

/-! ## Helper lemmas -/

theorem storeOk_updateStore (md5 : String → String) (store : DraftStore) (p : String)
    (v : Option Draft) (hv : ∀ d, v = some d → shadowOk md5 d) (hok : storeOk md5 store) :
    storeOk md5 (updateStore store p v) := by
  intro q e hq
  unfold updateStore at hq
  by_cases hqp : q = p
  · rw [if_pos hqp] at hq
    exact hv e hq
  · rw [if_neg hqp] at hq
    exact hok q e hq

theorem storeOk_markClean (md5 : String → String) (store : DraftStore) (p : String)
    (lm : Nat) (ck c : String) (hck : ck = md5 c) (hok : storeOk md5 store) :
    storeOk md5 (markClean store p lm ck c) := by
  unfold markClean
  cases hd : store p with
  | none => exact hok
  | some d =>
    refine storeOk_updateStore md5 store p _ ?_ hok
    intro e he sc hsc
    cases he
    simp only at hsc
    cases hsc
    simp only [hck]

theorem storeOk_saveDraft (md5 : String → String) (now : Nat) (store : DraftStore)
    (p c : String) (hok : storeOk md5 store) :
    storeOk md5 (saveDraft now store p c) := by
  unfold saveDraft
  refine storeOk_updateStore md5 store p _ ?_ hok
  intro e he sc hsc
  cases he
  cases hd : store p with
  | none => simp [hd] at hsc
  | some d =>
    simp only [hd, Option.some_bind] at hsc ⊢
    exact hok p d hd sc hsc

theorem storeOk_initShadow (md5 : String → String) (now : Nat) (store : DraftStore)
    (p c ck : String) (hck : ck = md5 c) (hok : storeOk md5 store) :
    storeOk md5 (initShadow now store p c ck) := by
  unfold initShadow
  refine storeOk_updateStore md5 store p _ ?_ hok
  intro e he sc hsc
  cases he
  simp only at hsc
  cases hsc
  simp only [hck]

theorem storeOk_moveDraft (md5 : String → String) (store : DraftStore)
    (oldPath newPath : String) (hok : storeOk md5 store) :
    storeOk md5 (moveDraft store oldPath newPath) := by
  unfold moveDraft
  cases hd : store oldPath with
  | none => exact hok
  | some d =>
    refine storeOk_updateStore md5 _ _ _ (by intro e he; cases he) ?_
    refine storeOk_updateStore md5 store newPath _ ?_ hok
    intro e he
    cases he
    exact hok oldPath d hd

theorem markClean_lookup (store : DraftStore) (p : String) (lm : Nat) (ck c : String)
    (d : Draft) (hd : store p = some d) :
    markClean store p lm ck c p = some
      { d with
        dirty := false
        timestamp := lm
        shadowContent := some c
        shadowChecksum := some ck } := by
  unfold markClean
  rw [hd]
  simp [updateStore]

theorem syncFullUpdate_trace_ne {σ : Type} (api : SyncApi σ) (srv : σ)
    (store : DraftStore) (path : String) (d : Draft) (tr : List Request) :
    (syncFullUpdate api srv store path d tr).2.2.2 ≠ [] := by
  unfold syncFullUpdate
  split <;> simp

theorem syncDirty_trace_ne {σ : Type} (api : SyncApi σ) (srv : σ)
    (store : DraftStore) (path : String) (d : Draft) :
    (syncDirty api srv store path d).2.2.2 ≠ [] := by
  unfold syncDirty
  split
  · dsimp only
    split
    · simp
    · exact syncFullUpdate_trace_ne api _ _ _ _ _
  · exact syncFullUpdate_trace_ne api _ _ _ _ _

theorem syncFile_some_dirty {σ : Type} (api : SyncApi σ) (srv : σ)
    (store : DraftStore) (path : String) (d : Draft)
    (hd : store path = some d) (hdirty : d.dirty = true) :
    syncFile api srv store path = syncDirty api srv store path d := by
  unfold syncFile
  rw [hd]
  simp [hdirty]

end CloudNote

namespace CloudNote

/-! ## Claim theorems -/

/-- C1: the claim says `getSafePath` never accepts a path outside the
sandboxed data root.  The code checks `safePath.startsWith(DATA_DIR)`
with no trailing separator, so with the root `/app/data` the request
path `../datax/secret` resolves to `/app/datax/secret` — outside the
root — and is accepted. -/
theorem c1_getSafePath_escape :
    getSafePath ["app", "data"] "../datax/secret" = some "/app/datax/secret" ∧
    ¬ strictlyInsideRoot "/app/data" "/app/datax/secret" := by decide

/-- C3: the claim says an item in the recovery area is permanently
removed only once 30 days have passed since its relocation there.  The
reap step compares `now` against the trash file's `mtimeMs`, which a
same-filesystem move preserves, so an unreferenced asset whose content
is 40 days old is quarantined and permanently deleted within one and
the same pass: after the pass it is gone from the asset tree and from
the recovery area, although zero time has elapsed since relocation. -/
theorem c3_reap_ignores_relocation_time :
    runGarbageCollection 3456000000
      ⟨[], [⟨"/upload/2023/01/01/a.png", 0⟩], []⟩ = ⟨[], [], []⟩ ∧
    3456000000 - 3456000000 < THIRTY_DAYS := by decide

/-- C4 counterexample: the claim counts references made with image or
link syntax, but the mark phase only runs a markdown-image regex and
an HTML img regex, so an asset cited only by a plain markdown link
`[video](/upload/2024/01/video.mp4)` is swept into quarantine even
though a document on disk references it. -/
theorem c4_link_syntax_swept :
    (runGarbageCollection 100 linkOnlyState).assets = [] ∧
    (runGarbageCollection 100 linkOnlyState).trash =
      [⟨"orphaned_100_video.mp4", 90⟩] := by decide

/-- C4 (amended): if an asset's url path is among the references the
mark phase actually extracts (markdown-image or HTML img syntax whose
captured url contains `/upload/` and decodes to the asset's path),
then a collector pass keeps the asset at its original path. -/
theorem c4_marked_assets_survive (now : Nat) (st : FsState) (a : Asset)
    (used : List String) (hMark : collectRefs st.docs = some used)
    (hRef : used.contains a.url = true) (hMem : a ∈ st.assets) :
    a ∈ (runGarbageCollection now st).assets := by
  unfold runGarbageCollection
  rw [hMark]
  simp only [List.mem_filter]
  exact ⟨hMem, hRef⟩

/-- C4 witness: a well-formed markdown image reference is extracted
and its asset survives the pass. -/
theorem c4_marked_assets_survive_witness :
    (⟨"/upload/x/a.png", 5⟩ : Asset) ∈
      (runGarbageCollection 10
        ⟨["pic ![a](/upload/x/a.png) end"], [⟨"/upload/x/a.png", 5⟩], []⟩).assets :=
  c4_marked_assets_survive 10
    ⟨["pic ![a](/upload/x/a.png) end"], [⟨"/upload/x/a.png", 5⟩], []⟩
    ⟨"/upload/x/a.png", 5⟩ ["/upload/x/a.png"] (by decide) (by decide) (by decide)

/-- C10: `markClean` at a path with no stored draft is the identity on
the whole store, and at any path it never touches entries at other
keys. -/
theorem c10_markClean_frame (store : DraftStore) (path : String) (lm : Nat)
    (ck c : String) :
    (store path = none → markClean store path lm ck c = store) ∧
    (∀ q, q ≠ path → markClean store path lm ck c q = store q) := by
  constructor
  · intro h
    unfold markClean
    rw [h]
  · intro q hq
    unfold markClean
    cases hd : store path with
    | none => rfl
    | some d => simp [updateStore, hq]

/-- C10 witness: `markClean` at the absent key `a.md` leaves a store
holding only `b.md` unchanged, and in particular `b.md` untouched. -/
theorem c10_markClean_frame_witness :
    markClean storeB "a.md" 9 "ck" "c" = storeB ∧
    markClean storeB "a.md" 9 "ck" "c" "b.md" = storeB "b.md" :=
  ⟨(c10_markClean_frame storeB "a.md" 9 "ck" "c").1 (by decide),
   (c10_markClean_frame storeB "a.md" 9 "ck" "c").2 "b.md" (by decide)⟩

/-- C2 counterexample: the claim covers every patch request on an
existing file, but a request whose baseFingerprint (or path) is the
empty string hits the 400 guard, so even though the fingerprint of the
current content differs from the supplied one, the outcome is a bare
bad-request error, not the version-conflict error carrying the current
content. -/
theorem c2_empty_fingerprint_bad_request :
    routerPatch mdC applyC 5 ⟨some "hello", 1⟩ "n.md" "p" "" =
      (⟨some "hello", 1⟩, .badRequest) ∧
    routerPatch mdC applyC 5 ⟨some "hello", 1⟩ "" "p" "ck" =
      (⟨some "hello", 1⟩, .badRequest) ∧
    mdC "hello" ≠ "" := by decide

/-- C2 (amended): for every patch request on an existing file that
passes the 400 guard (nonempty path and baseFingerprint): a
fingerprint mismatch yields version-conflict carrying the current
content with the file unchanged; a clean fingerprint but an unclean
hunk application yields patch-apply-failed carrying the current
content with the file unchanged; otherwise the patched text is
persisted and the new lastModified and fingerprint are returned. -/
theorem c2_patch_route_cases (md5 : String → String)
    (applyP : String → String → String × List Bool) (now : Nat)
    (st : FileState) (reqPath patchText checksum cur : String)
    (hPath : reqPath ≠ "") (hCk : checksum ≠ "") (hCur : st.content = some cur) :
    (md5 cur ≠ checksum →
      routerPatch md5 applyP now st reqPath patchText checksum = (st, .conflict cur)) ∧
    (md5 cur = checksum →
      ((applyP patchText cur).2.all (fun s => s) = false →
        routerPatch md5 applyP now st reqPath patchText checksum =
          (st, .applyFailed cur)) ∧
      ((applyP patchText cur).2.all (fun s => s) = true →
        routerPatch md5 applyP now st reqPath patchText checksum =
          (⟨some (applyP patchText cur).1, now⟩,
           .ok now (md5 (applyP patchText cur).1)))) := by
  unfold routerPatch
  rw [if_neg (by simp [hPath, hCk]), hCur]
  constructor
  · intro hne
    simp [hne]
  · intro heq
    constructor
    · intro hfail
      simp [heq, hfail]
    · intro hokk
      simp [heq, hokk]

/-- C2 witness: a clean patch application on a matching fingerprint
persists the patched text. -/
theorem c2_patch_route_cases_witness :
    routerPatch mdC applyC 7 ⟨some "base", 1⟩ "n.md" "newtext" "f:base" =
      (⟨some "newtext", 7⟩, .ok 7 "f:newtext") :=
  ((c2_patch_route_cases mdC applyC 7 ⟨some "base", 1⟩ "n.md" "newtext" "f:base" "base"
      (by decide) (by decide) rfl).2 (by decide)).2 (by decide)

/-- C6: the load/reconcile decision follows the claimed five-way case
split (the shadow is initialized under the route's guarantee that the
served checksum — an MD5 hex digest — is nonempty). -/
theorem c6_load_case_split (path : String) (sd : ServerData) (d : Draft)
    (hck : sd.checksum ≠ "") :
    loadContent path none none = .notFound ∧
    loadContent path none (some d) = .loaded d.content [.offlineNotice] ∧
    loadContent path (some sd) none =
      .loaded sd.content [.initShadowAct path sd.content sd.checksum] ∧
    (d.dirty = false →
      loadContent path (some sd) (some d) =
        .loaded sd.content [.initShadowAct path sd.content sd.checksum]) ∧
    (d.dirty = true →
      loadContent path (some sd) (some d) = .loaded d.content [.schedulePush path]) := by
  unfold loadContent
  refine ⟨rfl, rfl, ?_, ?_, ?_⟩
  · simp [hck]
  · intro hdirty
    simp [hdirty, hck]
  · intro hdirty
    simp [hdirty]

/-- C6 witness: with a dirty local draft and a live server copy, the
local content wins and a push is scheduled. -/
theorem c6_load_case_split_witness :
    loadContent "a.md" (some ⟨"srv", 3, "ck"⟩) (some ⟨"loc", 1, true, none, none⟩) =
      .loaded "loc" [.schedulePush "a.md"] :=
  (c6_load_case_split "a.md" ⟨"srv", 3, "ck"⟩ ⟨"loc", 1, true, none, none⟩
    (by decide)).2.2.2.2 rfl

/-- C8: `syncFile` on an absent or clean draft returns success with no
network request and no store or server change, so running it twice in
a row is a no-op both times. -/
theorem c8_clean_sync_noop {σ : Type} (api : SyncApi σ) (srv : σ)
    (store : DraftStore) (path : String)
    (h : store path = none ∨ ∃ d, store path = some d ∧ d.dirty = false) :
    syncFile api srv store path = (store, srv, ⟨true, none⟩, []) ∧
    syncFile api srv (syncFile api srv store path).1 path =
      (store, srv, ⟨true, none⟩, []) := by
  have h1 : syncFile api srv store path = (store, srv, ⟨true, none⟩, []) := by
    unfold syncFile
    rcases h with h | ⟨d, hd, hdirty⟩
    · rw [h]
    · rw [hd]
      simp [hdirty]
  refine ⟨h1, ?_⟩
  rw [h1]
  exact h1

/-- C8 witness: an already-clean draft is a no-op for a concrete
(unreachable-server) API, twice in a row. -/
theorem c8_clean_sync_noop_witness :
    syncFile downApi () cleanStore "a.md" = (cleanStore, (), ⟨true, none⟩, []) ∧
    syncFile downApi () (syncFile downApi () cleanStore "a.md").1 "a.md" =
      (cleanStore, (), ⟨true, none⟩, []) :=
  c8_clean_sync_noop downApi () cleanStore "a.md" (Or.inr ⟨_, rfl, rfl⟩)

/-- C9: `saveDraft` unconditionally stores the given content with
`dirty = true` and the current clock as the timestamp, carrying over
the existing shadow pair — even when the content is byte-equal to the
existing `shadowContent` — and a subsequent `syncFile` on the saved
draft always issues at least one network request. -/
theorem c9_save_always_dirty (now : Nat) (store : DraftStore) (path content : String) :
    (saveDraft now store path content) path = some
      { content := content
        timestamp := now
        dirty := true
        shadowContent := (store path).bind (fun d => d.shadowContent)
        shadowChecksum := (store path).bind (fun d => d.shadowChecksum) } ∧
    ∀ (σ : Type) (api : SyncApi σ) (srv : σ),
      (syncFile api srv (saveDraft now store path content) path).2.2.2 ≠ [] := by
  have hl : (saveDraft now store path content) path = some
      { content := content
        timestamp := now
        dirty := true
        shadowContent := (store path).bind (fun d => d.shadowContent)
        shadowChecksum := (store path).bind (fun d => d.shadowChecksum) } := by
    unfold saveDraft updateStore
    rw [if_pos rfl]
  refine ⟨hl, ?_⟩
  intro σ api srv
  rw [syncFile_some_dirty api srv _ path _ hl rfl]
  exact syncDirty_trace_ne api _ _ _ _

/-- C9 witness: saving content equal to the shadow still marks the
draft dirty and the next sync still issues a request. -/
theorem c9_save_always_dirty_witness :
    (saveDraft 5 storeIdOk "a.md" "A") "a.md" = some
      { content := "A"
        timestamp := 5
        dirty := true
        shadowContent := some "A"
        shadowChecksum := some "A" } ∧
    (syncFile downApi () (saveDraft 5 storeIdOk "a.md" "A") "a.md").2.2.2 ≠ [] := by
  have h := c9_save_always_dirty 5 storeIdOk "a.md" "A"
  exact ⟨by rw [h.1]; decide, h.2 Unit downApi ()⟩

/-- C7 counterexample: the claim quantifies over every dirty draft
whose shadow pair is present.  With `shadowContent` present but equal
to the empty string — the state a loaded empty server file leaves
behind — the JavaScript truthiness test skips the patch branch
entirely: even against a server that would accept the patch, the only
request sent is a full overwrite; no diff is ever sent. -/
theorem c7_empty_shadow_no_patch :
    emptyShadowStore "n.md" = some
      ⟨"B", 0, true, some "", some "d41d8cd98f00b204e9800998ecf8427e"⟩ ∧
    (syncFile okApi () emptyShadowStore "n.md").2.2.2 = [.putReq "n.md" "B"] := by
  decide

/-- C7 (amended): for every dirty draft whose shadow pair is present
and nonempty, `syncFile` first sends the diff built from
`shadowContent` to `content` together with `shadowChecksum`; if the
patch request succeeds it marks the draft clean with the
server-reported lastModified/fingerprint and the local content as the
new shadow (so the resulting `shadowContent` equals the draft's
`content`); if the patch request fails for any reason it falls back to
a full overwrite sending the entire local content, with the same
`markClean` on success; if the overwrite also fails the store is left
unchanged and failure is reported. -/
theorem c7_patch_then_fallback {σ : Type} (api : SyncApi σ) (srv : σ)
    (store : DraftStore) (path : String) (d : Draft) (sc scs : String)
    (hd : store path = some d) (hdirty : d.dirty = true)
    (hsc : d.shadowContent = some sc) (hsce : sc ≠ "")
    (hscs : d.shadowChecksum = some scs) (hscse : scs ≠ "") :
    (∀ srv2 resp,
      api.patchFile srv path (api.mkPatch sc d.content) scs = (srv2, .ok resp) →
      syncFile api srv store path =
        (markClean store path resp.lastModified resp.checksum d.content, srv2,
         ⟨true, some resp.lastModified⟩,
         [.patchReq path (api.mkPatch sc d.content) scs]) ∧
      markClean store path resp.lastModified resp.checksum d.content path = some
        { d with
          dirty := false
          timestamp := resp.lastModified
          shadowContent := some d.content
          shadowChecksum := some resp.checksum }) ∧
    (∀ srv2 e srv3 resp,
      api.patchFile srv path (api.mkPatch sc d.content) scs = (srv2, .error e) →
      api.updateFile srv2 path d.content = (srv3, .ok resp) →
      syncFile api srv store path =
        (markClean store path resp.lastModified resp.checksum d.content, srv3,
         ⟨true, some resp.lastModified⟩,
         [.patchReq path (api.mkPatch sc d.content) scs, .putReq path d.content]) ∧
      markClean store path resp.lastModified resp.checksum d.content path = some
        { d with
          dirty := false
          timestamp := resp.lastModified
          shadowContent := some d.content
          shadowChecksum := some resp.checksum }) ∧
    (∀ srv2 e srv3 e2,
      api.patchFile srv path (api.mkPatch sc d.content) scs = (srv2, .error e) →
      api.updateFile srv2 path d.content = (srv3, .error e2) →
      syncFile api srv store path =
        (store, srv3, ⟨false, none⟩,
         [.patchReq path (api.mkPatch sc d.content) scs, .putReq path d.content])) := by
  have hsync := syncFile_some_dirty api srv store path d hd hdirty
  have htr : truthyStr d.shadowContent = true ∧ truthyStr d.shadowChecksum = true := by
    simp [truthyStr, hsc, hscs, hsce, hscse]
  refine ⟨?_, ?_, ?_⟩
  · intro srv2 resp hp
    rw [hsync]
    unfold syncDirty
    rw [if_pos htr]
    simp only [hsc, hscs, Option.getD_some]
    rw [hp]
    exact ⟨rfl, markClean_lookup store path resp.lastModified resp.checksum d.content d hd⟩
  · intro srv2 e srv3 resp hp hu
    rw [hsync]
    unfold syncDirty
    rw [if_pos htr]
    simp only [hsc, hscs, Option.getD_some]
    rw [hp]
    unfold syncFullUpdate
    dsimp only
    rw [hu]
    exact ⟨rfl, markClean_lookup store path resp.lastModified resp.checksum d.content d hd⟩
  · intro srv2 e srv3 e2 hp hu
    rw [hsync]
    unfold syncDirty
    rw [if_pos htr]
    simp only [hsc, hscs, Option.getD_some]
    rw [hp]
    unfold syncFullUpdate
    dsimp only
    rw [hu]
    exact rfl

/-- C7 witness: a dirty draft with nonempty shadow pair whose patch
request fails (unreachable patch) falls back to the full overwrite and
ends clean with `shadowContent = content`. -/
theorem c7_patch_then_fallback_witness :
    syncFile failPatchApi () dirtyStore "n.md" =
      (markClean dirtyStore "n.md" 3 "ck3" "B", (), ⟨true, some 3⟩,
       [.patchReq "n.md" "d(A,B)" "fA", .putReq "n.md" "B"]) ∧
    markClean dirtyStore "n.md" 3 "ck3" "B" "n.md" =
      some ⟨"B", 3, false, some "B", some "ck3"⟩ :=
  (c7_patch_then_fallback failPatchApi () dirtyStore "n.md"
      ⟨"B", 0, true, some "A", some "fA"⟩ "A" "fA"
      (by decide) rfl rfl (by decide) rfl (by decide)).2.1 () () () ⟨3, "ck3"⟩ rfl rfl

theorem storeOk_syncFullUpdate_fileApi (md5 : String → String)
    (mkP : String → String → String) (applyP : String → String → String × List Bool)
    (now : Nat) (patchOk putOk : Bool) (srv : FileState) (store : DraftStore)
    (path : String) (d : Draft) (tr : List Request) (hok : storeOk md5 store) :
    storeOk md5
      ((syncFullUpdate (fileApi md5 mkP applyP now patchOk putOk) srv store path d tr).1) := by
  unfold syncFullUpdate fileApi
  dsimp only
  by_cases hput : putOk = true
  · rw [if_pos hput]
    unfold routerPut
    by_cases hp : path = ""
    · rw [if_pos hp]
      exact hok
    · rw [if_neg hp]
      exact storeOk_markClean md5 store path now (md5 d.content) d.content rfl hok
  · rw [if_neg hput]
    exact hok

theorem storeOk_syncFile_fileApi (md5 : String → String)
    (mkP : String → String → String) (applyP : String → String → String × List Bool)
    (hInj : ∀ a b, md5 a = md5 b → a = b)
    (hRT : ∀ a b, (applyP (mkP a b) a).1 = b)
    (now : Nat) (patchOk putOk : Bool) (srv : FileState) (store : DraftStore)
    (p : String) (hok : storeOk md5 store) :
    storeOk md5 ((syncFile (fileApi md5 mkP applyP now patchOk putOk) srv store p).1) := by
  unfold syncFile
  cases hd : store p with
  | none => exact hok
  | some d =>
    dsimp only
    by_cases hdirty : d.dirty = false
    · rw [if_pos hdirty]
      exact hok
    · rw [if_neg hdirty]
      unfold syncDirty
      cases hsc : d.shadowContent with
      | none =>
        rw [if_neg (by simp [truthyStr])]
        exact storeOk_syncFullUpdate_fileApi md5 mkP applyP now patchOk putOk srv store p d [] hok
      | some sc =>
        cases hscs : d.shadowChecksum with
        | none =>
          rw [if_neg (by simp [truthyStr])]
          exact storeOk_syncFullUpdate_fileApi md5 mkP applyP now patchOk putOk srv store p d [] hok
        | some scs =>
          by_cases hsce : sc = ""
          · rw [if_neg (by simp [truthyStr, hsce])]
            exact storeOk_syncFullUpdate_fileApi md5 mkP applyP now patchOk putOk srv store p d [] hok
          · by_cases hscse : scs = ""
            · rw [if_neg (by simp [truthyStr, hscse])]
              exact storeOk_syncFullUpdate_fileApi md5 mkP applyP now patchOk putOk srv store p d [] hok
            · rw [if_pos (by simp [truthyStr, hsce, hscse])]
              dsimp only [Option.getD_some, fileApi]
              by_cases hpo : patchOk = true
              · rw [if_pos hpo]
                unfold routerPatch
                by_cases hg : (p = "" ∨ scs = "")
                · rw [if_pos hg]
                  exact storeOk_syncFullUpdate_fileApi md5 mkP applyP now patchOk putOk _ store p d _ hok
                · rw [if_neg hg]
                  cases hcur : srv.content with
                  | none =>
                    exact storeOk_syncFullUpdate_fileApi md5 mkP applyP now patchOk putOk _ store p d _ hok
                  | some cur =>
                    split
                    · rename_i srv2 resp heq
                      split at heq
                      · rename_i st2 lm ck hro
                        split at hro
                        · simp at hro
                        · rename_i s hseq
                          have hcs : cur = s := Option.some.inj hseq
                          split at hro
                          · simp at hro
                          · rename_i hnmd
                            dsimp only at hro
                            split at hro
                            · have hms : md5 s = scs := not_not.mp hnmd
                              have h1 : d.shadowChecksum = some (md5 sc) := hok p d hd sc hsc
                              rw [hscs] at h1
                              have h2 : scs = md5 sc := Option.some.inj h1
                              have hseq2 : s = sc := hInj s sc (hms.trans h2)
                              subst hseq2
                              rw [hRT s d.content] at hro
                              obtain ⟨rlm, rck⟩ := resp
                              simp only [Prod.mk.injEq, PatchOutcome.ok.injEq, Except.ok.injEq,
                                ApiResp.mk.injEq] at hro heq
                              obtain ⟨hst2, hlm, hck⟩ := hro
                              obtain ⟨hsrv2, hlm2, hck2⟩ := heq
                              dsimp only
                              rw [← hck2, ← hck]
                              exact storeOk_markClean md5 store p rlm (md5 d.content) d.content rfl hok
                            · simp at hro
                      · simp at heq
                    · rename_i srv2 e heq
                      exact storeOk_syncFullUpdate_fileApi md5 mkP applyP now patchOk putOk _ store p d _ hok
              · rw [if_neg hpo]
                exact storeOk_syncFullUpdate_fileApi md5 mkP applyP now patchOk putOk srv store p d _ hok

theorem storeIdOk_ok : storeOk idHash storeIdOk := by
  intro p d hd sc hsc
  unfold storeIdOk at hd
  split at hd
  · cases hd
    cases hsc
    rfl
  · cases hd

/-- C5: every Draft Store operation — `saveDraft`, `initShadow` and
`markClean` with the fingerprint/content pairing their call sites
supply, `moveDraft`, and `syncFile` run against the server routes on
either its patch or its full-overwrite path, under any network
outcome — preserves the invariant that a present `shadowContent` is
paired with `shadowChecksum = md5 shadowContent`.  The two hypotheses
are the documented properties of the external libraries: MD5 is
collision-free on the texts involved, and a diff-match-patch patch
applied to the exact base it was built from reproduces the target. -/
theorem c5_shadow_invariant (md5 : String → String)
    (mkP : String → String → String) (applyP : String → String → String × List Bool)
    (hInj : ∀ a b, md5 a = md5 b → a = b)
    (hRT : ∀ a b, (applyP (mkP a b) a).1 = b) :
    (∀ now store p c, storeOk md5 store → storeOk md5 (saveDraft now store p c)) ∧
    (∀ now store p c, storeOk md5 store → storeOk md5 (initShadow now store p c (md5 c))) ∧
    (∀ store p lm c, storeOk md5 store → storeOk md5 (markClean store p lm (md5 c) c)) ∧
    (∀ store p q, storeOk md5 store → storeOk md5 (moveDraft store p q)) ∧
    (∀ now patchOk putOk srv store p, storeOk md5 store →
      storeOk md5 ((syncFile (fileApi md5 mkP applyP now patchOk putOk) srv store p).1)) :=
  ⟨fun now store p c hok => storeOk_saveDraft md5 now store p c hok,
   fun now store p c hok => storeOk_initShadow md5 now store p c (md5 c) rfl hok,
   fun store p lm c hok => storeOk_markClean md5 store p lm (md5 c) c rfl hok,
   fun store p q hok => storeOk_moveDraft md5 store p q hok,
   fun now patchOk putOk srv store p hok =>
     storeOk_syncFile_fileApi md5 mkP applyP hInj hRT now patchOk putOk srv store p hok⟩

/-- C5 witness: the invariant survives a concrete sync of a dirty
draft against a concrete server file, with concrete (identity-hash,
target-as-patch) stand-ins satisfying the two library hypotheses. -/
theorem c5_shadow_invariant_witness :
    storeOk idHash
      ((syncFile (fileApi idHash mkPC applyC 9 true true) ⟨some "A", 0⟩ storeIdOk "a.md").1) :=
  (c5_shadow_invariant idHash mkPC applyC (fun _ _ h => h) (fun _ _ => rfl)).2.2.2.2
    9 true true ⟨some "A", 0⟩ storeIdOk "a.md" storeIdOk_ok

end CloudNote
